import Mathlib

/-!
Verification of the bouncer button library (package bouncer, src/bouncer.go).

The development shallowly embeds the Go code: durations (Go time.Duration,
int64 nanoseconds) become Int; timestamps (Go time.Time) become Nat, with 0
playing the role of the zero value time.Time\x7b\x7d that the code uses as the
"empty" down-start sentinel; the ticks counter (a Go int, 32 bits wide on
the TinyGo targets this package imports machine for) becomes an Int kept in
two's-complement range by an explicit wrap at 2^32 on increment; channels
consumed by the recognizer become an explicit event stream processed by a
step function over the recognizer's local state (ticks, btnDown); Go errors
become an inductive error type.
-/

namespace Bouncer

/-- PressLength mirrors the Go type PressLength with its four constants
Debounce, ShortPress, LongPress, ExtraLongPress. -/
inductive PressLength where
  | Debounce
  | ShortPress
  | LongPress
  | ExtraLongPress
deriving DecidableEq, Repr

/-- BErr mirrors the error constants of bouncer.go (errors.New on the
ERROR_* strings). -/
inductive BErr where
  | debounceTooShort
  | debounceTooLong
  | timesMustAscend
  | noOutputChannels
deriving DecidableEq, Repr

/-- Bounce mirrors the Go struct Bounce: the sample time t (time.Time,
here Nat nanoseconds) and the sampled pin level s (true = up). -/
structure Bounce where
  t : Nat
  s : Bool
deriving DecidableEq, Repr

/-- One nanosecond count of Go time.Millisecond. -/
def msNs : Int := 1000000

/-- Button mirrors the Go struct button.  The pin handle and the ISR channel
are abstracted to opaque identifiers; the list of output channels keeps only
channel identity, which is all the claims need. -/
structure Button where
  pin : Nat
  name : String
  quiet : Bool
  debounceInterval : Int
  shortPress : Int
  longPress : Int
  extraLongPress : Int
  isrChan : Nat
  outChans : List Nat
deriving DecidableEq, Repr

/-- New mirrors the Go constructor New: it fails with
ERROR_NO_OUTPUT_CHANNELS when fewer than one output channel is supplied,
and otherwise builds a button with the default durations, copying the
supplied output channels one by one (the Go append loop). -/
def New (p : Nat) (q : Bool) (nm : String) (isrCh : Nat) (outs : List Nat) :
    Except BErr Button :=
  if outs.length < 1 then
    .error BErr.noOutputChannels
  else
    .ok
      { pin := p
        name := nm
        quiet := q
        debounceInterval := 21 * msNs
        shortPress := 22 * msNs
        longPress := 500 * msNs
        extraLongPress := 1971 * msNs
        isrChan := isrCh
        outChans := List.foldl (fun a c => a.concat c) [] outs }

/-- SetDebounceDuration mirrors the Go method SetDebounceDuration: the new
state of the button together with the returned error (none on success). -/
def SetDebounceDuration (b : Button) (t : Int) : Button × Option BErr :=
  if t < 10 * msNs then
    (b, some BErr.debounceTooShort)
  else if t > 30 * msNs then
    (b, some BErr.debounceTooLong)
  else
    ({ b with debounceInterval := t }, none)

/-- SetPressDurations mirrors the Go method SetPressDurations: the new state
of the button together with the returned error (none on success). -/
def SetPressDurations (b : Button) (sp lp elp : Int) : Button × Option BErr :=
  if sp > lp ∨ sp > elp ∨ lp > elp then
    (b, some BErr.timesMustAscend)
  else
    ({ b with shortPress := sp, longPress := lp, extraLongPress := elp }, none)

/-- recognize mirrors the Go method recognize: classify a down duration d
against the button's thresholds (the println side effects carry no state). -/
def recognize (b : Button) (d : Int) : PressLength :=
  if d ≥ b.extraLongPress then
    PressLength.ExtraLongPress
  else if d < b.extraLongPress ∧ d ≥ b.longPress then
    PressLength.LongPress
  else if d < b.longPress ∧ d ≥ b.shortPress then
    PressLength.ShortPress
  else
    PressLength.Debounce

/-- Two's-complement wraparound of a 32-bit signed integer: Go's defined
overflow for the 32-bit int of the TinyGo MCU targets.  The literals are
2^31 and 2^32. -/
def wrap32 (x : Int) : Int :=
  (x + 2147483648) % 4294967296 - 2147483648

/-- The recognizer's local state in RecognizeAndPublish: the ticks counter
(a 32-bit signed Go int, kept wrapped by step) and the button-down start
time btnDown (0 is the empty time.Time\x7b\x7d). -/
structure RecState where
  ticks : Int
  btnDown : Nat
deriving DecidableEq, Repr

/-- The recognizer's state at the top of RecognizeAndPublish:
ticks = 0 and an empty btnDown. -/
def initState : RecState := { ticks := 0, btnDown := 0 }

/-- One input to the recognizer's select loop: a pulse on tickerCh, or a
Bounce received on isrChan (t = sample time, s = sampled level, true = up). -/
inductive Event where
  | tick
  | edge (t : Nat) (s : Bool)
deriving DecidableEq, Repr

/-- step mirrors one iteration of the select loop of RecognizeAndPublish:
from the current state and one event it yields the next state and the
classification handed to publish, if any.  The increment ticks += 1 is a Go
signed-int addition, so it wraps at the 32-bit boundary (wrap32). -/
def step (b : Button) (st : RecState) (e : Event) : RecState × Option PressLength :=
  match e with
  | Event.tick =>
      if st.ticks = 0 then
        ({ st with btnDown := 0 }, none)
      else
        ({ st with ticks := wrap32 (st.ticks + 1) }, none)
  | Event.edge t s =>
      match s with
      | true =>
          if st.ticks = 0 then
            (st, none)
          else if st.ticks ≥ 2 then
            ({ ticks := 0, btnDown := 0 },
             some (recognize b ((t : Int) - (st.btnDown : Int))))
          else
            (st, none)
      | false =>
          if st.ticks = 0 then
            ({ ticks := 1, btnDown := t }, none)
          else
            (st, none)

/-- run folds step over a list of events, collecting every classification
handed to publish, in order. -/
def run (b : Button) (st : RecState) (es : List Event) : RecState × List PressLength :=
  match es with
  | [] => (st, [])
  | e :: rest =>
      let r1 := step b st e
      let r2 := run b r1.1 rest
      (r2.1, r1.2.toList ++ r2.2)

/-- HandlePin mirrors the Go interrupt handler HandlePin, whose body is the
single channel send isrChan <- Bounce\x7b...\x7d.  The channel is embedded as a
bounded queue of capacity cap: when there is room the send completes and the
event is appended (some), and when the queue is full the blocking Go send
cannot complete (none). -/
def HandlePin (cap : Nat) (q : List Bounce) (e : Bounce) : Option (List Bounce) :=
  if q.length < cap then some (q.concat e) else none

/-- Modelled from the spec: the EdgeRelay of spec section 4.1, which performs
a NON-blocking enqueue and drops the event when the bounded queue is full.
Stated only to compare with HandlePin, the behaviour of the source. -/
def handlePinSpecDrop (cap : Nat) (q : List Bounce) (e : Bounce) : List Bounce :=
  if q.length < cap then q.concat e else q

/-- A concrete button with the default durations of New, used to instantiate
universally quantified theorems. -/
def sampleButton : Button :=
  { pin := 0
    name := ("btn")
    quiet := true
    debounceInterval := 21 * msNs
    shortPress := 22 * msNs
    longPress := 500 * msNs
    extraLongPress := 1971 * msNs
    isrChan := 1
    outChans := [2] }

/-- Claim C1: for thresholds with shortPress ≤ longPress ≤ extraLongPress,
recognize is a pure function of the duration d and returns ExtraLongPress
when d ≥ extraLongPress, LongPress when longPress ≤ d < extraLongPress,
ShortPress when shortPress ≤ d < longPress, and Debounce when
d < shortPress (Debounce is an ordinary classification, not an error). -/
theorem recognize_classifies (b : Button) (d : Int)
    (h1 : b.shortPress ≤ b.longPress) (h2 : b.longPress ≤ b.extraLongPress) :
    (b.extraLongPress ≤ d → recognize b d = PressLength.ExtraLongPress) ∧
    (b.longPress ≤ d ∧ d < b.extraLongPress → recognize b d = PressLength.LongPress) ∧
    (b.shortPress ≤ d ∧ d < b.longPress → recognize b d = PressLength.ShortPress) ∧
    (d < b.shortPress → recognize b d = PressLength.Debounce) := by
  unfold recognize
  refine ⟨?_, ?_, ?_, ?_⟩ <;> intro h <;> split <;> try rfl
  all_goals first
    | (exfalso; omega)
    | (split <;> try rfl)
  all_goals first
    | (exfalso; omega)
    | (split <;> first | rfl | (exfalso; omega))

/-- Witness for C1: with the default thresholds, a 30 ms duration is
classified ShortPress by the theorem's third conjunct. -/
theorem recognize_classifies_witness :
    recognize sampleButton (30 * msNs) = PressLength.ShortPress :=
  (recognize_classifies sampleButton (30 * msNs) (by decide) (by decide)).2.2.1
    ⟨by decide, by decide⟩

/-- Claim C2: in AWAITING_UP (ticks ≥ 1) with ticks ≥ 2, an up-edge at time t
computes the duration t − btnDown, resets ticks to 0, clears btnDown (back to
IDLE, which is initState), and hands exactly the classification of that
duration to publish. -/
theorem step_up_debounced (b : Button) (st : RecState) (t : Nat)
    (h : 2 ≤ st.ticks) :
    step b st (Event.edge t true) =
      (initState, some (recognize b ((t : Int) - (st.btnDown : Int)))) := by
  unfold step initState
  have h0 : ¬ st.ticks = 0 := by omega
  simp [h0, h]

/-- Witness for C2: from state (ticks = 2, btnDown = 0), an up-edge at 30 ms
returns to the initial state and hands a ShortPress to publish. -/
theorem step_up_debounced_witness :
    step sampleButton { ticks := 2, btnDown := 0 } (Event.edge (30 * 1000000) true) =
      (initState, some PressLength.ShortPress) := by
  have h := step_up_debounced sampleButton { ticks := 2, btnDown := 0 }
    (30 * 1000000) (by decide)
  rw [h]
  decide

/-- Claim C7: a tick-only event sequence leaves the recognizer in the initial
IDLE state (ticks = 0, empty btnDown) and publishes nothing. -/
theorem run_ticks_only (b : Button) (es : List Event)
    (h : ∀ e ∈ es, e = Event.tick) :
    run b initState es = (initState, []) := by
  induction es with
  | nil => rfl
  | cons e rest ih =>
      have he : e = Event.tick := h e (List.mem_cons_self e rest)
      have hrest : ∀ x ∈ rest, x = Event.tick :=
        fun x hx => h x (List.mem_cons_of_mem e hx)
      subst he
      have hstep : step b initState Event.tick = (initState, none) := rfl
      simp [run, hstep, ih hrest]

/-- Witness for C7: three consecutive ticks from the initial state yield the
initial state and an empty list of published classifications. -/
theorem run_ticks_only_witness :
    run sampleButton initState [Event.tick, Event.tick, Event.tick] =
      (initState, []) :=
  run_ticks_only sampleButton [Event.tick, Event.tick, Event.tick]
    (by intro e he; simp at he; simp [he])

/-- Claim C8: in AWAITING_UP (1 ≤ ticks) with ticks < 2, an up-edge is
ignored: nothing is published and the state (ticks and btnDown) is
unchanged, so the machine stays in AWAITING_UP. -/
theorem step_up_bounce_ignored (b : Button) (st : RecState) (t : Nat)
    (h1 : 1 ≤ st.ticks) (h2 : st.ticks < 2) :
    step b st (Event.edge t true) = (st, none) := by
  unfold step
  have h0 : ¬ st.ticks = 0 := by omega
  have h3 : ¬ 2 ≤ st.ticks := by omega
  simp [h0, h3]

/-- Witness for C8: from (ticks = 1, btnDown = 7), an up-edge at time 9 is
ignored and the state is unchanged. -/
theorem step_up_bounce_ignored_witness :
    step sampleButton { ticks := 1, btnDown := 7 } (Event.edge 9 true) =
      ({ ticks := 1, btnDown := 7 }, none) :=
  step_up_bounce_ignored sampleButton { ticks := 1, btnDown := 7 } 9
    (by decide) (by decide)

/-- Claim C9: from any state, two consecutive down-edges produce exactly the
same state and published output as the first down-edge alone; in AWAITING_UP
(1 ≤ ticks) a down-edge changes neither ticks nor btnDown and publishes
nothing. -/
theorem down_down_eq_down (b : Button) (st : RecState) (t t2 : Nat) :
    run b st [Event.edge t false, Event.edge t2 false] =
      run b st [Event.edge t false] ∧
    (1 ≤ st.ticks → step b st (Event.edge t false) = (st, none)) := by
  constructor
  · by_cases h0 : st.ticks = 0 <;> simp [run, step, h0]
  · intro h
    unfold step
    have h0 : ¬ st.ticks = 0 := by omega
    simp [h0]

/-- Witness for C9: from state (ticks = 1, btnDown = 4), a second down-edge
adds nothing, and a single down-edge leaves the state unchanged. -/
theorem down_down_eq_down_witness :
    run sampleButton { ticks := 1, btnDown := 4 } [Event.edge 8 false, Event.edge 9 false] =
      run sampleButton { ticks := 1, btnDown := 4 } [Event.edge 8 false] ∧
    step sampleButton { ticks := 1, btnDown := 4 } (Event.edge 8 false) =
      ({ ticks := 1, btnDown := 4 }, none) := by
  have h := down_down_eq_down sampleButton { ticks := 1, btnDown := 4 } 8 9
  exact ⟨h.1, h.2 (by decide)⟩

/-- Claim C3: SetPressDurations fails with the ordering error exactly when
the three durations do not ascend; on failure the button is unchanged, and on
success the three press thresholds are all updated together. -/
theorem setPressDurations_atomic (b : Button) (sp lp elp : Int) :
    ((SetPressDurations b sp lp elp).2.isSome ↔ ¬ (sp ≤ lp ∧ lp ≤ elp)) ∧
    (¬ (sp ≤ lp ∧ lp ≤ elp) →
      SetPressDurations b sp lp elp = (b, some BErr.timesMustAscend)) ∧
    (sp ≤ lp ∧ lp ≤ elp →
      SetPressDurations b sp lp elp =
        ({ b with shortPress := sp, longPress := lp, extraLongPress := elp }, none)) := by
  unfold SetPressDurations
  by_cases h : sp > lp ∨ sp > elp ∨ lp > elp
  · have h2 : ¬ (sp ≤ lp ∧ lp ≤ elp) := by omega
    simp [h, h2]
  · have h2 : sp ≤ lp ∧ lp ≤ elp := by omega
    simp [h, h2]

/-- Witness for C3 (spec scenario F): descending durations 500 ms, 22 ms,
1971 ms fail with the ordering error and leave the button unchanged. -/
theorem setPressDurations_atomic_witness :
    SetPressDurations sampleButton (500 * msNs) (22 * msNs) (1971 * msNs) =
      (sampleButton, some BErr.timesMustAscend) :=
  (setPressDurations_atomic sampleButton (500 * msNs) (22 * msNs) (1971 * msNs)).2.1
    (by decide)

/-- Claim C4: SetDebounceDuration fails exactly when t < 10 ms or t > 30 ms
(so both bounds are accepted); on failure the button is unchanged, and on
success only debounceInterval is set, the press thresholds untouched. -/
theorem setDebounceDuration_range (b : Button) (t : Int) :
    ((SetDebounceDuration b t).2.isSome ↔ (t < 10 * msNs ∨ t > 30 * msNs)) ∧
    ((t < 10 * msNs ∨ t > 30 * msNs) → (SetDebounceDuration b t).1 = b) ∧
    (10 * msNs ≤ t ∧ t ≤ 30 * msNs →
      SetDebounceDuration b t = ({ b with debounceInterval := t }, none)) := by
  unfold SetDebounceDuration
  by_cases h1 : t < 10 * msNs
  · have h2 : t < 10 * msNs ∨ t > 30 * msNs := Or.inl h1
    simp [h1, h2]
  · by_cases h3 : t > 30 * msNs
    · have h2 : t < 10 * msNs ∨ t > 30 * msNs := Or.inr h3
      simp [h1, h3, h2]
    · have h2 : ¬ (t < 10 * msNs ∨ t > 30 * msNs) := by omega
      simp [h1, h3, h2]

/-- Witness for C4: the lower bound t = 10 ms itself is accepted, updating
only the debounce interval. -/
theorem setDebounceDuration_range_witness :
    SetDebounceDuration sampleButton (10 * msNs) =
      ({ sampleButton with debounceInterval := 10 * msNs }, none) :=
  (setDebounceDuration_range sampleButton (10 * msNs)).2.2 ⟨by decide, by decide⟩

/-- Folding concat from an accumulator appends the folded list (the Go
append loop of New copies the supplied channel slice). -/
theorem foldl_concat_eq_append (l acc : List Nat) :
    List.foldl (fun a c => a ++ [c]) acc l = acc ++ l := by
  induction l generalizing acc with
  | nil => simp
  | cons x xs ih =>
      rw [List.foldl_cons, ih]
      simp

/-- Claim C5: New fails with the no-output-channels error exactly when zero
output channels are supplied; for any non-empty channel list it succeeds and
returns the button with the default durations and those channels. -/
theorem new_requires_output_sinks (p : Nat) (q : Bool) (nm : String) (ch : Nat)
    (outs : List Nat) :
    (New p q nm ch outs = Except.error BErr.noOutputChannels ↔ outs = []) ∧
    (outs ≠ [] →
      New p q nm ch outs = Except.ok
        { pin := p
          name := nm
          quiet := q
          debounceInterval := 21 * msNs
          shortPress := 22 * msNs
          longPress := 500 * msNs
          extraLongPress := 1971 * msNs
          isrChan := ch
          outChans := outs }) := by
  unfold New
  by_cases h : outs = []
  · subst h
    simp
  · have hlen : ¬ outs.length < 1 := by
      cases outs with
      | nil => exact absurd rfl h
      | cons x xs => simp
    simp [hlen, h, foldl_concat_eq_append]

/-- Witness for C5: a single output channel suffices and yields the default
durations. -/
theorem new_requires_output_sinks_witness :
    New 0 true ("btn") 1 [5] = Except.ok
      { pin := 0
        name := ("btn")
        quiet := true
        debounceInterval := 21 * msNs
        shortPress := 22 * msNs
        longPress := 500 * msNs
        extraLongPress := 1971 * msNs
        isrChan := 1
        outChans := [5] } :=
  (new_requires_output_sinks 0 true ("btn") 1 [5]).2 (by decide)

/-- Claim C6, counterexample: the claim says HandlePin never blocks and drops
the event when the queue is full.  The Go body is the unconditional blocking
channel send isrChan <- Bounce\x7b...\x7d: on a full queue of capacity 3 the send
cannot complete (HandlePin returns none), while the drop-if-full relay of the
spec would discard the event and return.  So the claimed behaviour
HandlePin cap q e = some (handlePinSpecDrop cap q e) fails here. -/
theorem handlePin_blocks_on_full_queue :
    HandlePin 3 [{ t := 0, s := false }, { t := 1, s := true }, { t := 2, s := false }]
        { t := 3, s := true } = none ∧
    ¬ (HandlePin 3 [{ t := 0, s := false }, { t := 1, s := true }, { t := 2, s := false }]
          { t := 3, s := true } =
        some (handlePinSpecDrop 3
          [{ t := 0, s := false }, { t := 1, s := true }, { t := 2, s := false }]
          { t := 3, s := true })) := by
  constructor
  · rfl
  · decide

/-- Claim C6 amended: HandlePin performs exactly one blocking channel send
per edge: when the queue has room the event is appended and the send
completes; when the queue is full the send blocks the interrupt handler (no
completed state exists) and the event is not dropped. -/
theorem handlePin_single_blocking_send (cap : Nat) (q : List Bounce) (e : Bounce) :
    (q.length < cap → HandlePin cap q e = some (q.concat e)) ∧
    (cap ≤ q.length → HandlePin cap q e = none) := by
  unfold HandlePin
  constructor
  · intro h
    simp [h]
  · intro h
    have h2 : ¬ q.length < cap := by omega
    simp [h2]

/-- Witness for the amended C6: with room in the queue the edge is appended. -/
theorem handlePin_single_blocking_send_witness :
    HandlePin 3 [] { t := 0, s := false } = some [{ t := 0, s := false }] :=
  (handlePin_single_blocking_send 3 [] { t := 0, s := false }).1 (by decide)

/-- Unfolding run on a cons cell. -/
theorem run_cons (b : Button) (st : RecState) (e : Event) (rest : List Event) :
    run b st (e :: rest) =
      ((run b (step b st e).1 rest).1,
       (step b st e).2.toList ++ (run b (step b st e).1 rest).2) := rfl

/-- wrap32 is the identity on values already in 32-bit signed range. -/
theorem wrap32_eq_self (x : Int) (h1 : -2147483648 ≤ x) (h2 : x < 2147483648) :
    wrap32 x = x := by
  unfold wrap32
  omega

/-- wrap32 always lands in 32-bit signed range. -/
theorem wrap32_range (x : Int) :
    -2147483648 ≤ wrap32 x ∧ wrap32 x < 2147483648 := by
  unfold wrap32
  omega

/-- Adding after a wrap is the same as wrapping the whole sum. -/
theorem wrap32_wrap32_add (x y : Int) : wrap32 (wrap32 x + y) = wrap32 (x + y) := by
  unfold wrap32
  omega

/-- Closed form for a run of n ticks from a held-down state whose counter
never passes through 0 along the way: btnDown is untouched, nothing is
published, and the counter advances by n modulo the 32-bit wrap. -/
theorem run_replicate_tick (b : Button) (bd : Nat) :
    ∀ (n : Nat) (i : Int), -2147483648 ≤ i → i < 2147483648 →
      (∀ j : Nat, j < n → wrap32 (i + j) ≠ 0) →
      run b { ticks := i, btnDown := bd } (List.replicate n Event.tick) =
        ({ ticks := wrap32 (i + n), btnDown := bd }, []) := by
  intro n
  induction n with
  | zero =>
      intro i h1 h2 _
      simp [run, wrap32_eq_self i h1 h2]
  | succ n ih =>
      intro i h1 h2 h
      have hi0 : i ≠ 0 := by
        have h0 := h 0 (Nat.succ_pos n)
        rwa [Nat.cast_zero, add_zero, wrap32_eq_self i h1 h2] at h0
      have hstep : step b { ticks := i, btnDown := bd } Event.tick =
          ({ ticks := wrap32 (i + 1), btnDown := bd }, none) := by
        simp [step, hi0]
      have hj : ∀ j : Nat, j < n → wrap32 (wrap32 (i + 1) + j) ≠ 0 := by
        intro j hjn
        rw [wrap32_wrap32_add]
        have hnext := h (j + 1) (by omega)
        have hcast : i + ((j + 1 : Nat) : Int) = i + 1 + (j : Int) := by
          push_cast
          ring
        rwa [hcast] at hnext
      have hrec := ih (wrap32 (i + 1)) (wrap32_range (i + 1)).1
        (wrap32_range (i + 1)).2 hj
      rw [List.replicate_succ, run_cons, hstep, hrec]
      have hcast2 : wrap32 (wrap32 (i + 1) + (n : Int)) = wrap32 (i + ((n + 1 : Nat) : Int)) := by
        rw [wrap32_wrap32_add]
        congr 1
        push_cast
        ring
      simp [hcast2]

/-- The event sequence that exposes the 32-bit wrap of ticks: one down-edge
at time 1, then the button held through 2^32 − 1 ticks. -/
def wrapSeq : List Event :=
  Event.edge 1 false :: List.replicate 4294967295 Event.tick

/-- Claim C10, counterexample: the claim asserts that in every state
reachable from the initial state, ticks = 0 exactly when btnDown is empty,
and that the defensive btnDown clear on a tick in IDLE never changes a
reachable state.  After wrapSeq (a down-edge at time 1, then 2^32 − 1
ticks) the signed 32-bit counter has wrapped back to 0 while btnDown is
still 1, so the equivalence fails there and the next tick's defensive clear
does change the state. -/
theorem ticks_wrap_breaks_invariant :
    (run sampleButton initState wrapSeq).1 = { ticks := 0, btnDown := 1 } ∧
    ¬ ((run sampleButton initState wrapSeq).1.ticks = 0 ↔
       (run sampleButton initState wrapSeq).1.btnDown = 0) ∧
    step sampleButton (run sampleButton initState wrapSeq).1 Event.tick ≠
      ((run sampleButton initState wrapSeq).1, none) := by
  have hstep1 : step sampleButton initState (Event.edge 1 false) =
      ({ ticks := 1, btnDown := 1 }, none) := rfl
  have hrest : run sampleButton { ticks := 1, btnDown := 1 }
      (List.replicate 4294967295 Event.tick) = ({ ticks := 0, btnDown := 1 }, []) := by
    have hj : ∀ j : Nat, j < 4294967295 → wrap32 (1 + (j : Int)) ≠ 0 := by
      intro j hjn
      unfold wrap32
      omega
    have h := run_replicate_tick sampleButton 1 4294967295 1 (by omega) (by omega) hj
    have hval : wrap32 (1 + ((4294967295 : Nat) : Int)) = 0 := by
      unfold wrap32
      norm_num
    rw [h, hval]
  have hrun : run sampleButton initState wrapSeq = ({ ticks := 0, btnDown := 1 }, []) := by
    unfold wrapSeq
    rw [run_cons, hstep1, hrest]
    rfl
  rw [hrun]
  refine ⟨rfl, by decide, ?_⟩
  decide

/-- One step preserves the one-directional invariant: an empty btnDown
forces ticks = 0, provided any down-edge carries a nonzero sample time
(time.Now never yields the zero time.Time). -/
theorem step_preserves_empty_inv (b : Button) (st : RecState) (e : Event)
    (hinv : st.btnDown = 0 → st.ticks = 0)
    (he : ∀ t, e = Event.edge t false → 0 < t) :
    ((step b st e).1.btnDown = 0 → (step b st e).1.ticks = 0) := by
  cases e with
  | tick =>
      unfold step
      by_cases h : st.ticks = 0
      · simp [h]
      · simp [h]
        intro hb
        exact absurd (hinv hb) h
  | edge t s =>
      cases s with
      | false =>
          have ht : 0 < t := he t rfl
          unfold step
          by_cases h : st.ticks = 0
          · simp [h]
            omega
          · simp [h]
            exact fun hb => h (hinv hb)
      | true =>
          unfold step
          by_cases h : st.ticks = 0
          · simp [h]
          · by_cases h2 : 2 ≤ st.ticks
            · simp [h, h2]
            · simp [h, h2]
              exact fun hb => h (hinv hb)

/-- Running any event list whose down-edges have nonzero sample times
preserves the invariant that an empty btnDown forces ticks = 0. -/
theorem run_preserves_empty_inv (b : Button) (st : RecState) (es : List Event)
    (hinv : st.btnDown = 0 → st.ticks = 0)
    (h : ∀ t, Event.edge t false ∈ es → 0 < t) :
    ((run b st es).1.btnDown = 0 → (run b st es).1.ticks = 0) := by
  induction es generalizing st with
  | nil => exact hinv
  | cons e rest ih =>
      have h1 : ∀ t, e = Event.edge t false → 0 < t :=
        fun t ht => h t (ht ▸ List.mem_cons_self e rest)
      have h2 : ∀ t, Event.edge t false ∈ rest → 0 < t :=
        fun t ht => h t (List.mem_cons_of_mem e ht)
      have hfst : (run b st (e :: rest)).1 = (run b (step b st e).1 rest).1 := rfl
      rw [hfst]
      exact ih (step b st e).1 (step_preserves_empty_inv b st e hinv h1) h2

/-- Claim C10 amended: in every state reachable from the initial state by
events whose down-edges carry nonzero sample times (as time.Now always
does), an empty btnDown forces ticks = 0.  The converse fails: with ticks a
wrapping 32-bit signed int, holding the button through 2^32 − 1 ticks
returns the counter to 0 while btnDown is still set, and the defensive
clear on the next tick in IDLE then does change the reachable state. -/
theorem reachable_empty_downstart_ticks_zero (b : Button) (es : List Event)
    (h : ∀ t, Event.edge t false ∈ es → 0 < t) :
    (run b initState es).1.btnDown = 0 → (run b initState es).1.ticks = 0 :=
  run_preserves_empty_inv b initState es (fun _ => rfl) h

/-- Witness for the amended C10: after a full debounced press (down at 5,
two ticks, up at 30000005), the recognizer is back at btnDown empty and the
invariant yields ticks = 0 there. -/
theorem reachable_empty_downstart_ticks_zero_witness :
    (run sampleButton initState
        [Event.edge 5 false, Event.tick, Event.tick, Event.edge 30000005 true]).1.ticks = 0 :=
  reachable_empty_downstart_ticks_zero sampleButton
    [Event.edge 5 false, Event.tick, Event.tick, Event.edge 30000005 true]
    (by intro t ht; simp at ht; omega) (by decide)

end Bouncer
